import Mathlib

/-!
# HomeCanvas: verification of the placement / history engine

Shallow embedding of the interactive-placement and revision-history core of
the HomeCanvas application:

* the coordinate mapping from pointer/touch positions to normalized,
  letterbox-aware image-space percentages (`ImageUploader.handlePlacement`
  and the geometry block of `App.handleTouchEnd`);
* the linear, branch-discarding undo/redo history over scene revisions
  (`sceneHistory` / `currentSceneIndex` and its mutators in `App`);
* the chat edit-context selection with auto-fallback (`Chat` effect and
  `App.handleChatSubmit`);
* the placement-gizmo move/scale interaction (`PlacementGizmo`);
* the drop and chat submission handlers with their external-service calls
  modelled as explicit result parameters.

Javascript numbers are modelled by `ℚ`; files and images by type
parameters; fallible external calls by `Except`/`Option` arguments.
-/

/-- The payload of a successful placement: container-relative drop position
and image-relative percentage position, as passed to `onProductDrop`. -/
structure PlacementEvent where
  dropX : ℚ
  dropY : ℚ
  xPercent : ℚ
  yPercent : ℚ
deriving Repr, DecidableEq

/-- The letterbox geometry computed inside `ImageUploader.handlePlacement`
(steps 2 of the source): rendered size of the image under `object-contain`
and its offset inside the container. -/
structure Letterbox where
  renderedWidth : ℚ
  renderedHeight : ℚ
  offsetX : ℚ
  offsetY : ℚ
deriving Repr, DecidableEq

/-- Source `ImageUploader.handlePlacement`, branch on aspect ratios:
width-constrained with `offsetX = 0` when `imageAspectRatio >
containerAspectRatio`, else height-constrained with `offsetY = 0`. -/
def uploaderLetterbox (containerWidth containerHeight naturalWidth naturalHeight : ℚ) :
    Letterbox :=
  let imageAspectRatio := naturalWidth / naturalHeight
  let containerAspectRatio := containerWidth / containerHeight
  if imageAspectRatio > containerAspectRatio then
    { renderedWidth := containerWidth
      renderedHeight := containerWidth / imageAspectRatio
      offsetX := 0
      offsetY := (containerHeight - containerWidth / imageAspectRatio) / 2 }
  else
    { renderedWidth := containerHeight * imageAspectRatio
      renderedHeight := containerHeight
      offsetX := (containerWidth - containerHeight * imageAspectRatio) / 2
      offsetY := 0 }

/-- Source `ImageUploader.handlePlacement` (steps 1-6): translate the client
position to container-local coordinates, subtract the letterbox offset, and
either reject (out of bounds, `none`; the source returns without calling
`onProductDrop`) or emit the placement event. -/
def handlePlacement (clientX clientY rectLeft rectTop containerWidth containerHeight
    naturalWidth naturalHeight : ℚ) : Option PlacementEvent :=
  let dropX := clientX - rectLeft
  let dropY := clientY - rectTop
  let lb := uploaderLetterbox containerWidth containerHeight naturalWidth naturalHeight
  let imageX := dropX - lb.offsetX
  let imageY := dropY - lb.offsetY
  if imageX < 0 ∨ imageX > lb.renderedWidth ∨ imageY < 0 ∨ imageY > lb.renderedHeight then
    none
  else
    some { dropX := dropX, dropY := dropY
           xPercent := imageX / lb.renderedWidth * 100
           yPercent := imageY / lb.renderedHeight * 100 }

/-- Source `App.handleTouchEnd` geometry block (the touch-release pathway):
computes `renderedWidth`/`renderedHeight` by the same aspect branch, but
derives both offsets as `(container - rendered) / 2`, then applies the same
bounds test and percentage formulas. -/
def touchEndPlacement (clientX clientY rectLeft rectTop containerWidth containerHeight
    naturalWidth naturalHeight : ℚ) : Option PlacementEvent :=
  let imageAspectRatio := naturalWidth / naturalHeight
  let containerAspectRatio := containerWidth / containerHeight
  let renderedWidth :=
    if imageAspectRatio > containerAspectRatio then containerWidth
    else containerHeight * imageAspectRatio
  let renderedHeight :=
    if imageAspectRatio > containerAspectRatio then containerWidth / imageAspectRatio
    else containerHeight
  let offsetX := (containerWidth - renderedWidth) / 2
  let offsetY := (containerHeight - renderedHeight) / 2
  let dropX := clientX - rectLeft
  let dropY := clientY - rectTop
  let imageX := dropX - offsetX
  let imageY := dropY - offsetY
  if ¬(imageX < 0 ∨ imageX > renderedWidth ∨ imageY < 0 ∨ imageY > renderedHeight) then
    some { dropX := dropX, dropY := dropY
           xPercent := imageX / renderedWidth * 100
           yPercent := imageY / renderedHeight * 100 }
  else none

/-- Rendered width as the spec's letterbox algorithm (§4.1) states it. -/
def specRenderedWidth (containerWidth containerHeight naturalWidth naturalHeight : ℚ) : ℚ :=
  if naturalWidth / naturalHeight > containerWidth / containerHeight then containerWidth
  else containerHeight * (naturalWidth / naturalHeight)

/-- Rendered height as the spec's letterbox algorithm (§4.1) states it. -/
def specRenderedHeight (containerWidth containerHeight naturalWidth naturalHeight : ℚ) : ℚ :=
  if naturalWidth / naturalHeight > containerWidth / containerHeight then
    containerWidth / (naturalWidth / naturalHeight)
  else containerHeight

/-- Horizontal letterbox offset as the spec states it (`0` when
width-constrained, otherwise half the leftover width). -/
def specOffsetX (containerWidth containerHeight naturalWidth naturalHeight : ℚ) : ℚ :=
  if naturalWidth / naturalHeight > containerWidth / containerHeight then 0
  else (containerWidth - specRenderedWidth containerWidth containerHeight naturalWidth naturalHeight) / 2

/-- Vertical letterbox offset as the spec states it (`0` when
height-constrained, otherwise half the leftover height). -/
def specOffsetY (containerWidth containerHeight naturalWidth naturalHeight : ℚ) : ℚ :=
  if naturalWidth / naturalHeight > containerWidth / containerHeight then
    (containerHeight - specRenderedHeight containerWidth containerHeight naturalWidth naturalHeight) / 2
  else 0

/-! ## SceneHistory: the revision history of `App` -/

/-- The scene-history state of `App`: `sceneHistory : File[]` and
`currentSceneIndex : number` (initialized to `-1`). The image payload is a
type parameter. -/
structure SceneHistoryState (α : Type) where
  revisions : List α
  index : ℤ
deriving Repr, DecidableEq

/-- `App`: `const sceneImage = sceneHistory[currentSceneIndex] ?? null`
(a negative index reads `undefined` in JS). -/
def sceneImage {α : Type} (s : SceneHistoryState α) : Option α :=
  if s.index < 0 then none else s.revisions[s.index.toNat]?

/-- `App`: `const previousSceneImage = sceneHistory[currentSceneIndex - 1] ?? null`. -/
def previousSceneImage {α : Type} (s : SceneHistoryState α) : Option α :=
  if s.index - 1 < 0 then none else s.revisions[(s.index - 1).toNat]?

/-- `App`: `const canSceneUndo = currentSceneIndex > 0`. -/
def canSceneUndo {α : Type} (s : SceneHistoryState α) : Bool :=
  s.index > 0

/-- `App`: `const canSceneRedo = currentSceneIndex < sceneHistory.length - 1`. -/
def canSceneRedo {α : Type} (s : SceneHistoryState α) : Bool :=
  s.index < (s.revisions.length : ℤ) - 1

/-- `App.handleSceneUndo`: decrement the index when `canSceneUndo`. -/
def handleSceneUndo {α : Type} (s : SceneHistoryState α) : SceneHistoryState α :=
  if canSceneUndo s then { s with index := s.index - 1 } else s

/-- `App.handleSceneRedo`: increment the index when `canSceneRedo`. -/
def handleSceneRedo {α : Type} (s : SceneHistoryState α) : SceneHistoryState α :=
  if canSceneRedo s then { s with index := s.index + 1 } else s

/-- `App.updateSceneImage`: `newHistory = sceneHistory.slice(0,
currentSceneIndex + 1)`, append the new file, and set the index to
`newHistory.length` (the position of the appended revision). -/
def updateSceneImage {α : Type} (s : SceneHistoryState α) (newImageFile : α) :
    SceneHistoryState α :=
  let newHistory := s.revisions.take (s.index + 1).toNat
  { revisions := newHistory ++ [newImageFile], index := (newHistory.length : ℤ) }

/-- `App.setSceneFile`: starts or replaces the history with `[file]`, index `0`. -/
def setSceneFile {α : Type} (file : α) : SceneHistoryState α :=
  { revisions := [file], index := 0 }

/-- `App.handleReset` / `App.handleChangeScene`, restricted to the history
fields: `setSceneHistory([])`, `setCurrentSceneIndex(-1)`. -/
def resetSceneHistory (α : Type) : SceneHistoryState α :=
  { revisions := [], index := -1 }

/-- The SceneHistory invariant of spec §3: `-1 ≤ index ≤ len(revisions)-1`,
with `index = -1` exactly when the history is empty. -/
def historyInv {α : Type} (s : SceneHistoryState α) : Prop :=
  -1 ≤ s.index ∧ s.index ≤ (s.revisions.length : ℤ) - 1 ∧ (s.index = -1 ↔ s.revisions = [])

instance {α : Type} [DecidableEq α] (s : SceneHistoryState α) :
    Decidable (historyInv s) := by
  unfold historyInv; infer_instance

/-- One undo/redo interaction: `true` presses Undo, `false` presses Redo. -/
def applyUndoRedo {α : Type} (ops : List Bool) (s : SceneHistoryState α) :
    SceneHistoryState α :=
  ops.foldl (fun t op => if op then handleSceneUndo t else handleSceneRedo t) s

/-! ## Chat context selection -/

/-- The `imageContext` selector of `Chat` / `App.handleChatSubmit`. -/
inductive ImageContext where
  | current
  | previous
deriving Repr, DecidableEq

/-- `Chat` effect (lines 52-56): whenever `hasPreviousImage` or the chosen
context changes, `if (!hasPreviousImage && imageContext === 'previous')
setImageContext('current')`. -/
def contextFallback (hasPreviousImage : Bool) (imageContext : ImageContext) :
    ImageContext :=
  if ¬hasPreviousImage ∧ imageContext = ImageContext.previous then ImageContext.current
  else imageContext

/-- `App.handleChatSubmit` line 238: `imageToEdit = imageContext === 'current'
? sceneImage : previousSceneImage`. -/
def selectBase {α : Type} (imageContext : ImageContext) (s : SceneHistoryState α) :
    Option α :=
  if imageContext = ImageContext.current then sceneImage s else previousSceneImage s

/-! ## PlacementGizmo move/scale interaction -/

/-- `PlacementGizmo` drag mode (`activeDrag`). -/
inductive DragType where
  | move
  | scale
deriving Repr, DecidableEq

/-- `PlacementGizmo.startDragInfo`: pointer origin plus the snapshotted
product position and scale. -/
structure StartDragInfo where
  x : ℚ
  y : ℚ
  productX : ℚ
  productY : ℚ
  scale : ℚ
deriving Repr, DecidableEq

/-- The partial update `PlacementGizmo.handleInteractionMove` passes to
`onUpdate`: either a new position or a new scale. -/
inductive GizmoUpdate where
  | position (x y : ℚ)
  | scaled (scale : ℚ)
deriving Repr, DecidableEq

/-- `PlacementGizmo.handleInteractionMove`: with no active drag, nothing; in
`move` mode, translate by the pointer displacement; in `scale` mode,
`newScale = startDragInfo.scale + dx * 0.005` floor-clamped by
`Math.max(0.1, newScale)` — `dy` is computed but unused for scaling. -/
def handleInteractionMove (activeDrag : Option DragType) (startDragInfo : StartDragInfo)
    (clientX clientY : ℚ) : Option GizmoUpdate :=
  match activeDrag with
  | none => none
  | some drag =>
    let dx := clientX - startDragInfo.x
    let dy := clientY - startDragInfo.y
    match drag with
    | DragType.move =>
      some (GizmoUpdate.position (startDragInfo.productX + dx) (startDragInfo.productY + dy))
    | DragType.scale =>
      let scaleChange := dx * (0.005 : ℚ)
      let newScale := startDragInfo.scale + scaleChange
      some (GizmoUpdate.scaled (max (0.1 : ℚ) newScale))

/-! ## App-level handlers with external services as explicit results -/

/-- Chat message role (`'user' | 'model'`). -/
inductive ChatRole where
  | user
  | model
deriving Repr, DecidableEq

/-- `ChatMessage { role, text }` of `App`. -/
structure ChatMessage where
  role : ChatRole
  text : String
deriving Repr, DecidableEq

/-- The `{ text, imageUrl }` payload returned by `editImageWithChat`; the
image is carried already decoded (the source converts `imageUrl` to a `File`
via `dataURLtoFile`). -/
structure ChatEditResult (α : Type) where
  text : Option String
  image : Option α
deriving Repr, DecidableEq

/-- The `{ finalImageUrl, debugImageUrl, finalPrompt }` payload returned by
`generateCompositeImage`, with the final image already decoded to a file. -/
structure CompositeResult (α : Type) where
  finalImage : α
  debugImageUrl : String
  finalPrompt : String
deriving Repr, DecidableEq

/-- The slice of `App` state touched by the drop and chat handlers. -/
structure AppState (α : Type) where
  scene : SceneHistoryState α
  chatHistory : List ChatMessage
  error : Option String
  debugImageUrl : Option String
  debugPrompt : Option String
deriving Repr, DecidableEq

/-- `App.handleChatSubmit`: select the base image by context; if absent,
append the informational model message and stop (no external call, flagged
`false`). Otherwise append the user message, dispatch `editImageWithChat`
(its outcome is the `response` argument, flagged `true`), and on success
append the model text (if any), push the edited image (if any), or append
the canned soft-failure message when both are absent; on failure append an
`Error:` message. -/
def handleChatSubmit {α : Type} (s : AppState α) (prompt : String)
    (imageContext : ImageContext) (response : Except String (ChatEditResult α)) :
    AppState α × Bool :=
  match selectBase imageContext s.scene with
  | none =>
    ({ s with chatHistory :=
        s.chatHistory ++ [ChatMessage.mk ChatRole.model "There is no image to edit in that context."] },
     false)
  | some _ =>
    let s1 := { s with chatHistory := s.chatHistory ++ [ChatMessage.mk ChatRole.user prompt] }
    match response with
    | Except.error msg =>
      ({ s1 with chatHistory := s1.chatHistory ++ [ChatMessage.mk ChatRole.model ("Error: " ++ msg)] }, true)
    | Except.ok r =>
      let modelResponses : List ChatMessage :=
        match r.text with
        | some t => [ChatMessage.mk ChatRole.model t]
        | none => []
      let s2 :=
        match r.image with
        | some newImageFile => { s1 with scene := updateSceneImage s1.scene newImageFile }
        | none => s1
      let modelResponses :=
        if r.text.isNone && r.image.isNone then
          modelResponses ++ [ChatMessage.mk ChatRole.model "I couldn't process that request. Please try again."]
        else modelResponses
      ({ s2 with chatHistory := s2.chatHistory ++ modelResponses }, true)

/-- `App.handleProductDrop`: guard on product file, scene image and selected
product; clear the error, dispatch `generateCompositeImage` (outcome in
`response`); on success record the debug data and push the new scene file
into the history; on failure set a user-visible error and leave the history
untouched. -/
def handleProductDrop {α β γ : Type} (s : AppState α) (productImageFile : Option β)
    (selectedProduct : Option γ) (response : Except String (CompositeResult α)) :
    AppState α :=
  match productImageFile, sceneImage s.scene, selectedProduct with
  | some _, some _, some _ =>
    let s0 := { s with error := none }
    match response with
    | Except.ok r =>
      { s0 with debugImageUrl := some r.debugImageUrl
                debugPrompt := some r.finalPrompt
                scene := updateSceneImage s0.scene r.finalImage }
    | Except.error msg =>
      { s0 with error := some ("Failed to generate the image. " ++ msg) }
  | _, _, _ => { s with error := some "An unexpected error occurred. Please try again." }

/-! ## Theorems -/

theorem applyUndoRedo_revisions {α : Type} (ops : List Bool) (s : SceneHistoryState α) :
    (applyUndoRedo ops s).revisions = s.revisions := by
  induction ops generalizing s with
  | nil => rfl
  | cons op ops ih =>
    show (applyUndoRedo ops (if op then handleSceneUndo s else handleSceneRedo s)).revisions
        = s.revisions
    rw [ih]
    cases op <;>
      simp [handleSceneUndo, handleSceneRedo, apply_ite SceneHistoryState.revisions]

theorem sceneImage_mem {α : Type} {s : SceneHistoryState α} {x : α}
    (h : sceneImage s = some x) : x ∈ s.revisions := by
  unfold sceneImage at h
  split at h
  · exact absurd h (by simp)
  · exact List.getElem?_mem h

/-- The C2 scenario: from the empty history, `push a; push b; push c; undo;
push d` through the source operations. -/
def c2Scenario {α : Type} (a b c d : α) : SceneHistoryState α :=
  updateSceneImage (handleSceneUndo (updateSceneImage (updateSceneImage
    (updateSceneImage (resetSceneHistory α) a) b) c)) d

theorem c2Scenario_eq {α : Type} (a b c d : α) :
    c2Scenario a b c d = ⟨[a, b, d], 2⟩ := by
  rfl

/-- C2: starting from the empty SceneHistory, `push(A); push(B); push(C);
undo(); push(D)` leaves the revision sequence `[A, B, D]` with index 2;
`redo()` there is a no-op, and no sequence of undo/redo operations can reach
`C` again (for `C` distinct from the retained revisions). -/
theorem c2_push_undo_push_discards_redo_branch {α : Type} (a b c d : α)
    (hca : c ≠ a) (hcb : c ≠ b) (hcd : c ≠ d) :
    (c2Scenario a b c d).revisions = [a, b, d] ∧
    (c2Scenario a b c d).index = 2 ∧
    handleSceneRedo (c2Scenario a b c d) = c2Scenario a b c d ∧
    ∀ ops : List Bool, sceneImage (applyUndoRedo ops (c2Scenario a b c d)) ≠ some c := by
  refine ⟨by rw [c2Scenario_eq], by rw [c2Scenario_eq], by rw [c2Scenario_eq]; rfl, ?_⟩
  intro ops h
  have hmem := sceneImage_mem h
  rw [applyUndoRedo_revisions, c2Scenario_eq] at hmem
  simp only [List.mem_cons, List.mem_singleton, List.not_mem_nil, or_false] at hmem
  rcases hmem with h1 | h1 | h1
  · exact hca h1
  · exact hcb h1
  · exact hcd h1

theorem c2_witness :
    (2 : ℕ) ≠ 0 ∧ (2 : ℕ) ≠ 1 ∧ (2 : ℕ) ≠ 3 ∧
    ((c2Scenario 0 1 2 3).revisions = [0, 1, 3] ∧
     (c2Scenario 0 1 2 3).index = 2 ∧
     handleSceneRedo (c2Scenario 0 1 2 3) = c2Scenario 0 1 2 3 ∧
     ∀ ops : List Bool, sceneImage (applyUndoRedo ops (c2Scenario 0 1 2 3)) ≠ some 2) :=
  ⟨by decide, by decide, by decide,
   c2_push_undo_push_discards_redo_branch 0 1 2 3 (by decide) (by decide) (by decide)⟩

theorem historyInv_reset {α : Type} : historyInv (resetSceneHistory α) := by
  unfold historyInv resetSceneHistory
  refine ⟨by norm_num, by norm_num, by simp⟩

theorem historyInv_setSceneFile {α : Type} (f : α) : historyInv (setSceneFile f) := by
  unfold historyInv setSceneFile
  refine ⟨by norm_num, by norm_num, by simp⟩

theorem historyInv_updateSceneImage {α : Type} (s : SceneHistoryState α) (f : α)
    (h : historyInv s) : historyInv (updateSceneImage s f) := by
  obtain ⟨h1, h2, h3⟩ := h
  unfold updateSceneImage
  refine ⟨?_, ?_, ?_⟩
  · show -1 ≤ ((s.revisions.take (s.index + 1).toNat).length : ℤ)
    omega
  · show ((s.revisions.take (s.index + 1).toNat).length : ℤ) ≤
      ((s.revisions.take (s.index + 1).toNat ++ [f]).length : ℤ) - 1
    simp
  · show ((s.revisions.take (s.index + 1).toNat).length : ℤ) = -1 ↔
      s.revisions.take (s.index + 1).toNat ++ [f] = []
    constructor
    · intro hc
      exfalso
      omega
    · intro hc
      exact absurd hc (by simp)

theorem historyInv_undo {α : Type} (s : SceneHistoryState α)
    (h : historyInv s) : historyInv (handleSceneUndo s) := by
  obtain ⟨h1, h2, h3⟩ := h
  unfold handleSceneUndo canSceneUndo
  split
  · next hcond =>
    simp only [decide_eq_true_eq] at hcond
    refine ⟨?_, ?_, ?_⟩
    · show -1 ≤ s.index - 1
      omega
    · show s.index - 1 ≤ (s.revisions.length : ℤ) - 1
      omega
    · show s.index - 1 = -1 ↔ s.revisions = []
      constructor
      · intro hc
        exfalso
        omega
      · intro hnil
        exfalso
        rw [hnil] at h2
        simp at h2
        omega
  · exact ⟨h1, h2, h3⟩

theorem historyInv_redo {α : Type} (s : SceneHistoryState α)
    (h : historyInv s) : historyInv (handleSceneRedo s) := by
  obtain ⟨h1, h2, h3⟩ := h
  unfold handleSceneRedo canSceneRedo
  split
  · next hcond =>
    simp only [decide_eq_true_eq] at hcond
    refine ⟨?_, ?_, ?_⟩
    · show -1 ≤ s.index + 1
      omega
    · show s.index + 1 ≤ (s.revisions.length : ℤ) - 1
      omega
    · show s.index + 1 = -1 ↔ s.revisions = []
      constructor
      · intro hc
        exfalso
        omega
      · intro hnil
        exfalso
        rw [hnil] at hcond
        simp at hcond
        omega
  · exact ⟨h1, h2, h3⟩

theorem sceneImage_isSome_iff {α : Type} (s : SceneHistoryState α)
    (h : historyInv s) : (sceneImage s).isSome ↔ s.revisions ≠ [] := by
  obtain ⟨h1, h2, h3⟩ := h
  unfold sceneImage
  split
  · next hneg =>
    have hidx : s.index = -1 := by omega
    simp [h3.mp hidx]
  · next hpos =>
    have hlt : s.index.toNat < s.revisions.length := by omega
    simp only [List.getElem?_eq_getElem hlt, Option.isSome_some, true_iff]
    intro hnil
    rw [hnil] at hlt
    simp at hlt

theorem previousSceneImage_isSome_iff {α : Type} (s : SceneHistoryState α)
    (h : historyInv s) : (previousSceneImage s).isSome ↔ 1 ≤ s.index := by
  obtain ⟨h1, h2, h3⟩ := h
  unfold previousSceneImage
  split
  · next hneg =>
    simp only [Option.isSome_none, Bool.false_eq_true, false_iff]
    omega
  · next hpos =>
    have hlt : (s.index - 1).toNat < s.revisions.length := by omega
    simp only [List.getElem?_eq_getElem hlt, Option.isSome_some, true_iff]
    omega

/-- C4: every SceneHistory operation — reset/change-scene, setting the
initial scene, pushing an edit result, undo and redo — preserves the
invariant `-1 ≤ index ≤ len(revisions) - 1` with `index = -1` exactly when
the history is empty; consequently the derived `current` entry is present
exactly when the history is nonempty and the `previous` entry exactly when
`index ≥ 1`. -/
theorem c4_history_operations_preserve_invariant {α : Type} (f : α)
    (s : SceneHistoryState α) :
    historyInv (resetSceneHistory α) ∧
    historyInv (setSceneFile f) ∧
    (historyInv s → historyInv (updateSceneImage s f)) ∧
    (historyInv s → historyInv (handleSceneUndo s)) ∧
    (historyInv s → historyInv (handleSceneRedo s)) ∧
    (historyInv s → ((sceneImage s).isSome ↔ s.revisions ≠ [])) ∧
    (historyInv s → ((previousSceneImage s).isSome ↔ 1 ≤ s.index)) :=
  ⟨historyInv_reset, historyInv_setSceneFile f, historyInv_updateSceneImage s f,
   historyInv_undo s, historyInv_redo s, sceneImage_isSome_iff s,
   previousSceneImage_isSome_iff s⟩

theorem c4_witness :
    historyInv (resetSceneHistory ℕ) ∧
    historyInv (setSceneFile (7 : ℕ)) ∧
    historyInv (updateSceneImage (⟨[5], 0⟩ : SceneHistoryState ℕ) 7) ∧
    historyInv (handleSceneUndo (⟨[5], 0⟩ : SceneHistoryState ℕ)) ∧
    historyInv (handleSceneRedo (⟨[5], 0⟩ : SceneHistoryState ℕ)) ∧
    ((sceneImage (⟨[5], 0⟩ : SceneHistoryState ℕ)).isSome ↔
      (⟨[5], 0⟩ : SceneHistoryState ℕ).revisions ≠ []) ∧
    ((previousSceneImage (⟨[5], 0⟩ : SceneHistoryState ℕ)).isSome ↔
      1 ≤ (⟨[5], 0⟩ : SceneHistoryState ℕ).index) := by
  have h := c4_history_operations_preserve_invariant (7 : ℕ) (⟨[5], 0⟩ : SceneHistoryState ℕ)
  have hinv : historyInv (⟨[5], 0⟩ : SceneHistoryState ℕ) := by decide
  exact ⟨h.1, h.2.1, h.2.2.1 hinv, h.2.2.2.1 hinv, h.2.2.2.2.1 hinv,
    h.2.2.2.2.2.1 hinv, h.2.2.2.2.2.2 hinv⟩

/-- C5: if the chosen edit context is `previous` and the history has shrunk
to at most one revision (so no previous revision exists), the `Chat` fallback
effect forces the effective context back to `current`, so the base selection
returns the current entry — which is present whenever the history still
holds one revision. -/
theorem c5_previous_context_falls_back_to_current {α : Type}
    (s : SceneHistoryState α) (h : historyInv s) (hlen : s.revisions.length ≤ 1) :
    contextFallback (previousSceneImage s).isSome ImageContext.previous =
      ImageContext.current ∧
    selectBase (contextFallback (previousSceneImage s).isSome ImageContext.previous) s =
      sceneImage s ∧
    (s.revisions.length = 1 →
      (selectBase (contextFallback (previousSceneImage s).isSome ImageContext.previous)
        s).isSome) := by
  have hprev : (previousSceneImage s).isSome = false := by
    rw [Bool.eq_false_iff]
    intro hc
    have := (previousSceneImage_isSome_iff s h).mp hc
    have h2 := h.2.1
    omega
  have hfall : contextFallback (previousSceneImage s).isSome ImageContext.previous =
      ImageContext.current := by
    rw [hprev]
    rfl
  refine ⟨hfall, by rw [hfall]; rfl, ?_⟩
  intro hone
  rw [hfall]
  show (sceneImage s).isSome
  rw [sceneImage_isSome_iff s h]
  intro hnil
  rw [hnil] at hone
  simp at hone

theorem c5_witness :
    historyInv (⟨[5], 0⟩ : SceneHistoryState ℕ) ∧
    (⟨[5], 0⟩ : SceneHistoryState ℕ).revisions.length ≤ 1 ∧
    (contextFallback (previousSceneImage (⟨[5], 0⟩ : SceneHistoryState ℕ)).isSome
        ImageContext.previous = ImageContext.current ∧
     selectBase (contextFallback
        (previousSceneImage (⟨[5], 0⟩ : SceneHistoryState ℕ)).isSome
        ImageContext.previous) (⟨[5], 0⟩ : SceneHistoryState ℕ) =
       sceneImage (⟨[5], 0⟩ : SceneHistoryState ℕ) ∧
     ((⟨[5], 0⟩ : SceneHistoryState ℕ).revisions.length = 1 →
       (selectBase (contextFallback
          (previousSceneImage (⟨[5], 0⟩ : SceneHistoryState ℕ)).isSome
          ImageContext.previous) (⟨[5], 0⟩ : SceneHistoryState ℕ)).isSome)) :=
  ⟨by decide, by decide,
   c5_previous_context_falls_back_to_current (⟨[5], 0⟩ : SceneHistoryState ℕ)
     (by decide) (by decide)⟩

/-- C6: in scale mode the gizmo interaction yields exactly
`max(0.1, origin_scale + horizontal_drag * 0.005)`; the vertical pointer
coordinate is ignored; a 100-unit horizontal drag from scale 1.0 gives
exactly 1.5; and any drag that would push the scale below 0.1 clamps to
exactly 0.1. -/
theorem c6_gizmo_scale_formula (info : StartDragInfo) (clientX clientY : ℚ) :
    handleInteractionMove (some DragType.scale) info clientX clientY =
      some (GizmoUpdate.scaled (max (1 / 10) (info.scale + (clientX - info.x) * (5 / 1000)))) ∧
    (∀ y1 y2 : ℚ, handleInteractionMove (some DragType.scale) info clientX y1 =
      handleInteractionMove (some DragType.scale) info clientX y2) ∧
    (info.scale = 1 → clientX - info.x = 100 →
      handleInteractionMove (some DragType.scale) info clientX clientY =
        some (GizmoUpdate.scaled (3 / 2))) ∧
    (info.scale + (clientX - info.x) * (5 / 1000) < 1 / 10 →
      handleInteractionMove (some DragType.scale) info clientX clientY =
        some (GizmoUpdate.scaled (1 / 10))) := by
  have hbase : handleInteractionMove (some DragType.scale) info clientX clientY =
      some (GizmoUpdate.scaled (max (1 / 10) (info.scale + (clientX - info.x) * (5 / 1000)))) := by
    unfold handleInteractionMove
    norm_num
  refine ⟨hbase, fun y1 y2 => rfl, ?_, ?_⟩
  · intro hs hx
    rw [hbase, hs, hx]
    norm_num
  · intro hlt
    rw [hbase, max_eq_left (le_of_lt hlt)]

theorem c6_witness :
    handleInteractionMove (some DragType.scale) ⟨0, 0, 0, 0, 1⟩ 100 55 =
      some (GizmoUpdate.scaled (3 / 2)) ∧
    handleInteractionMove (some DragType.scale) ⟨0, 0, 0, 0, 1⟩ (-1000) 55 =
      some (GizmoUpdate.scaled (1 / 10)) :=
  ⟨(c6_gizmo_scale_formula ⟨0, 0, 0, 0, 1⟩ 100 55).2.2.1 rfl (by norm_num),
   (c6_gizmo_scale_formula ⟨0, 0, 0, 0, 1⟩ (-1000) 55).2.2.2 (by norm_num)⟩

/-- C3: over identical container and natural-image geometry, the mouse
drag/drop mapping (`ImageUploader.handlePlacement`) and the touch-release
mapping (`App.handleTouchEnd`) are the same function: identical input
positions produce identical `PlacementEvent` payloads and identical
accept/reject decisions. -/
theorem c3_touch_and_pointer_mappings_agree (clientX clientY rectLeft rectTop
    containerWidth containerHeight naturalWidth naturalHeight : ℚ) :
    handlePlacement clientX clientY rectLeft rectTop containerWidth containerHeight
      naturalWidth naturalHeight =
    touchEndPlacement clientX clientY rectLeft rectTop containerWidth containerHeight
      naturalWidth naturalHeight := by
  unfold handlePlacement touchEndPlacement uploaderLetterbox
  by_cases h : naturalWidth / naturalHeight > containerWidth / containerHeight <;>
    simp only [h, if_true, if_false, ite_true, ite_false, ite_not] <;>
    norm_num

theorem uploaderLetterbox_spec (cw ch nw nh : ℚ) :
    uploaderLetterbox cw ch nw nh =
      ⟨specRenderedWidth cw ch nw nh, specRenderedHeight cw ch nw nh,
       specOffsetX cw ch nw nh, specOffsetY cw ch nw nh⟩ := by
  by_cases h : nw / nh > cw / ch <;>
    simp [uploaderLetterbox, specRenderedWidth, specRenderedHeight, specOffsetX,
      specOffsetY, h]

theorem handlePlacement_eq (px py l t cw ch nw nh : ℚ) :
    handlePlacement px py l t cw ch nw nh =
      if px - l - specOffsetX cw ch nw nh < 0 ∨
         px - l - specOffsetX cw ch nw nh > specRenderedWidth cw ch nw nh ∨
         py - t - specOffsetY cw ch nw nh < 0 ∨
         py - t - specOffsetY cw ch nw nh > specRenderedHeight cw ch nw nh then
        none
      else
        some ⟨px - l, py - t,
          (px - l - specOffsetX cw ch nw nh) / specRenderedWidth cw ch nw nh * 100,
          (py - t - specOffsetY cw ch nw nh) / specRenderedHeight cw ch nw nh * 100⟩ := by
  unfold handlePlacement
  rw [uploaderLetterbox_spec]

theorem specRenderedWidth_pos (cw ch nw nh : ℚ) (hcw : 0 < cw) (hch : 0 < ch)
    (hnw : 0 < nw) (hnh : 0 < nh) : 0 < specRenderedWidth cw ch nw nh := by
  unfold specRenderedWidth
  split
  · exact hcw
  · positivity

theorem specRenderedHeight_pos (cw ch nw nh : ℚ) (hcw : 0 < cw) (hch : 0 < ch)
    (hnw : 0 < nw) (hnh : 0 < nh) : 0 < specRenderedHeight cw ch nw nh := by
  unfold specRenderedHeight
  split
  · positivity
  · exact hch

/-- C1: for positive container and natural-image dimensions, the coordinate
mapping follows the letterbox algorithm: it rejects (returning `none`, so no
placement event) exactly when the container-local point minus the letterbox
offset leaves `[0, renderedWidth] × [0, renderedHeight]`; otherwise it emits
`xPercent = imageX / renderedWidth * 100` and `yPercent = imageY /
renderedHeight * 100`, and for points strictly inside the rendered rectangle
both percentages lie in `[0, 100]`. -/
theorem c1_coordinate_mapper_contract (px py l t cw ch nw nh : ℚ)
    (hcw : 0 < cw) (hch : 0 < ch) (hnw : 0 < nw) (hnh : 0 < nh) :
    (handlePlacement px py l t cw ch nw nh = none ↔
      px - l - specOffsetX cw ch nw nh < 0 ∨
      px - l - specOffsetX cw ch nw nh > specRenderedWidth cw ch nw nh ∨
      py - t - specOffsetY cw ch nw nh < 0 ∨
      py - t - specOffsetY cw ch nw nh > specRenderedHeight cw ch nw nh) ∧
    (¬(px - l - specOffsetX cw ch nw nh < 0 ∨
       px - l - specOffsetX cw ch nw nh > specRenderedWidth cw ch nw nh ∨
       py - t - specOffsetY cw ch nw nh < 0 ∨
       py - t - specOffsetY cw ch nw nh > specRenderedHeight cw ch nw nh) →
      handlePlacement px py l t cw ch nw nh =
        some ⟨px - l, py - t,
          (px - l - specOffsetX cw ch nw nh) / specRenderedWidth cw ch nw nh * 100,
          (py - t - specOffsetY cw ch nw nh) / specRenderedHeight cw ch nw nh * 100⟩) ∧
    (0 < px - l - specOffsetX cw ch nw nh →
     px - l - specOffsetX cw ch nw nh < specRenderedWidth cw ch nw nh →
     0 < py - t - specOffsetY cw ch nw nh →
     py - t - specOffsetY cw ch nw nh < specRenderedHeight cw ch nw nh →
      ∃ ev : PlacementEvent, handlePlacement px py l t cw ch nw nh = some ev ∧
        0 ≤ ev.xPercent ∧ ev.xPercent ≤ 100 ∧ 0 ≤ ev.yPercent ∧ ev.yPercent ≤ 100) := by
  have hrw := specRenderedWidth_pos cw ch nw nh hcw hch hnw hnh
  have hrh := specRenderedHeight_pos cw ch nw nh hcw hch hnw hnh
  rw [handlePlacement_eq]
  refine ⟨?_, ?_, ?_⟩
  · split
    · next hc => simpa using hc
    · next hc => simpa using hc
  · intro hin
    rw [if_neg hin]
  · intro hx0 hx1 hy0 hy1
    have hin : ¬(px - l - specOffsetX cw ch nw nh < 0 ∨
        px - l - specOffsetX cw ch nw nh > specRenderedWidth cw ch nw nh ∨
        py - t - specOffsetY cw ch nw nh < 0 ∨
        py - t - specOffsetY cw ch nw nh > specRenderedHeight cw ch nw nh) := by
      push_neg
      exact ⟨le_of_lt hx0, le_of_lt hx1, le_of_lt hy0, le_of_lt hy1⟩
    rw [if_neg hin]
    refine ⟨_, rfl, ?_, ?_, ?_, ?_⟩
    · have := div_nonneg (le_of_lt hx0) (le_of_lt hrw)
      show 0 ≤ (px - l - specOffsetX cw ch nw nh) / specRenderedWidth cw ch nw nh * 100
      linarith
    · have := (div_le_one hrw).mpr (le_of_lt hx1)
      show (px - l - specOffsetX cw ch nw nh) / specRenderedWidth cw ch nw nh * 100 ≤ 100
      linarith
    · have := div_nonneg (le_of_lt hy0) (le_of_lt hrh)
      show 0 ≤ (py - t - specOffsetY cw ch nw nh) / specRenderedHeight cw ch nw nh * 100
      linarith
    · have := (div_le_one hrh).mpr (le_of_lt hy1)
      show (py - t - specOffsetY cw ch nw nh) / specRenderedHeight cw ch nw nh * 100 ≤ 100
      linarith

theorem c1_witness :
    (0 : ℚ) < 400 ∧ (0 : ℚ) < 300 ∧ (0 : ℚ) < 800 ∧ (0 : ℚ) < 400 ∧
    handlePlacement 200 150 0 0 400 300 800 400 = some ⟨200, 150, 50, 50⟩ := by
  refine ⟨by norm_num, by norm_num, by norm_num, by norm_num, ?_⟩
  have e1 : specOffsetX 400 300 800 400 = 0 := by norm_num [specOffsetX]
  have e2 : specRenderedHeight 400 300 800 400 = 200 := by norm_num [specRenderedHeight]
  have e3 : specOffsetY 400 300 800 400 = 50 := by norm_num [specOffsetY, specRenderedHeight]
  have e4 : specRenderedWidth 400 300 800 400 = 400 := by norm_num [specRenderedWidth]
  have h := c1_coordinate_mapper_contract 200 150 0 0 400 300 800 400
    (by norm_num) (by norm_num) (by norm_num) (by norm_num)
  have h2 := h.2.1 (by rw [e1, e2, e3, e4]; norm_num)
  rw [h2, e1, e2, e3, e4]
  norm_num

/-- C9: the out-of-bounds test uses strict inequalities, so a pointer on the
edge of the rendered rectangle (`imageX ∈ {0, renderedWidth}` or `imageY ∈
{0, renderedHeight}`, the other coordinate within bounds) is in-bounds: a
placement event is emitted, with the boundary percentage exactly `0` or
exactly `100`. -/
theorem c9_boundary_points_are_in_bounds (px py l t cw ch nw nh : ℚ)
    (hcw : 0 < cw) (hch : 0 < ch) (hnw : 0 < nw) (hnh : 0 < nh)
    (hx0 : 0 ≤ px - l - specOffsetX cw ch nw nh)
    (hx1 : px - l - specOffsetX cw ch nw nh ≤ specRenderedWidth cw ch nw nh)
    (hy0 : 0 ≤ py - t - specOffsetY cw ch nw nh)
    (hy1 : py - t - specOffsetY cw ch nw nh ≤ specRenderedHeight cw ch nw nh) :
    ∃ ev : PlacementEvent, handlePlacement px py l t cw ch nw nh = some ev ∧
      (px - l - specOffsetX cw ch nw nh = 0 → ev.xPercent = 0) ∧
      (px - l - specOffsetX cw ch nw nh = specRenderedWidth cw ch nw nh →
        ev.xPercent = 100) ∧
      (py - t - specOffsetY cw ch nw nh = 0 → ev.yPercent = 0) ∧
      (py - t - specOffsetY cw ch nw nh = specRenderedHeight cw ch nw nh →
        ev.yPercent = 100) := by
  have hrw := specRenderedWidth_pos cw ch nw nh hcw hch hnw hnh
  have hrh := specRenderedHeight_pos cw ch nw nh hcw hch hnw hnh
  rw [handlePlacement_eq]
  have hin : ¬(px - l - specOffsetX cw ch nw nh < 0 ∨
      px - l - specOffsetX cw ch nw nh > specRenderedWidth cw ch nw nh ∨
      py - t - specOffsetY cw ch nw nh < 0 ∨
      py - t - specOffsetY cw ch nw nh > specRenderedHeight cw ch nw nh) := by
    push_neg
    exact ⟨hx0, hx1, hy0, hy1⟩
  rw [if_neg hin]
  refine ⟨_, rfl, ?_, ?_, ?_, ?_⟩
  · intro hx
    show (px - l - specOffsetX cw ch nw nh) / specRenderedWidth cw ch nw nh * 100 = 0
    rw [hx, zero_div, zero_mul]
  · intro hx
    show (px - l - specOffsetX cw ch nw nh) / specRenderedWidth cw ch nw nh * 100 = 100
    rw [hx, div_self (ne_of_gt hrw), one_mul]
  · intro hy
    show (py - t - specOffsetY cw ch nw nh) / specRenderedHeight cw ch nw nh * 100 = 0
    rw [hy, zero_div, zero_mul]
  · intro hy
    show (py - t - specOffsetY cw ch nw nh) / specRenderedHeight cw ch nw nh * 100 = 100
    rw [hy, div_self (ne_of_gt hrh), one_mul]

theorem c9_witness :
    (0 : ℚ) ≤ 400 - 0 - specOffsetX 400 300 800 400 ∧
    400 - 0 - specOffsetX 400 300 800 400 ≤ specRenderedWidth 400 300 800 400 ∧
    (0 : ℚ) ≤ 250 - 0 - specOffsetY 400 300 800 400 ∧
    250 - 0 - specOffsetY 400 300 800 400 ≤ specRenderedHeight 400 300 800 400 ∧
    (∃ ev : PlacementEvent, handlePlacement 400 250 0 0 400 300 800 400 = some ev ∧
      (400 - 0 - specOffsetX 400 300 800 400 = 0 → ev.xPercent = 0) ∧
      (400 - 0 - specOffsetX 400 300 800 400 = specRenderedWidth 400 300 800 400 →
        ev.xPercent = 100) ∧
      (250 - 0 - specOffsetY 400 300 800 400 = 0 → ev.yPercent = 0) ∧
      (250 - 0 - specOffsetY 400 300 800 400 = specRenderedHeight 400 300 800 400 →
        ev.yPercent = 100)) := by
  have e1 : specOffsetX 400 300 800 400 = 0 := by norm_num [specOffsetX]
  have e2 : specRenderedHeight 400 300 800 400 = 200 := by norm_num [specRenderedHeight]
  have e3 : specOffsetY 400 300 800 400 = 50 := by norm_num [specOffsetY, specRenderedHeight]
  have e4 : specRenderedWidth 400 300 800 400 = 400 := by norm_num [specRenderedWidth]
  refine ⟨by rw [e1]; norm_num, by rw [e1, e4]; norm_num,
    by rw [e3]; norm_num, by rw [e3, e2]; norm_num, ?_⟩
  exact c9_boundary_points_are_in_bounds 400 250 0 0 400 300 800 400
    (by norm_num) (by norm_num) (by norm_num) (by norm_num)
    (by rw [e1]; norm_num) (by rw [e1, e4]; norm_num)
    (by rw [e3]; norm_num) (by rw [e3, e2]; norm_num)

/-- C7: a chat edit whose context has no base revision is rejected before
dispatch: the external call is not made (`false` flag), the SceneHistory is
unchanged, and the informational model message is appended to the chat. -/
theorem c7_chat_submit_rejects_missing_base {α : Type} (s : AppState α)
    (prompt : String) (ctx : ImageContext) (response : Except String (ChatEditResult α))
    (h : selectBase ctx s.scene = none) :
    handleChatSubmit s prompt ctx response =
      ({ s with chatHistory := s.chatHistory ++
          [ChatMessage.mk ChatRole.model "There is no image to edit in that context."] },
       false) ∧
    (handleChatSubmit s prompt ctx response).1.scene = s.scene ∧
    (handleChatSubmit s prompt ctx response).2 = false := by
  have hmain : handleChatSubmit s prompt ctx response =
      ({ s with chatHistory := s.chatHistory ++
          [ChatMessage.mk ChatRole.model "There is no image to edit in that context."] },
       false) := by
    unfold handleChatSubmit
    rw [h]
  exact ⟨hmain, by rw [hmain], by rw [hmain]⟩

theorem c7_witness :
    selectBase ImageContext.current
      (⟨[], -1⟩ : SceneHistoryState ℕ) = none ∧
    (handleChatSubmit (⟨⟨[], -1⟩, [], none, none, none⟩ : AppState ℕ) "add a lamp"
        ImageContext.current (Except.ok ⟨none, none⟩) =
      ({ (⟨⟨[], -1⟩, [], none, none, none⟩ : AppState ℕ) with chatHistory :=
          (⟨⟨[], -1⟩, [], none, none, none⟩ : AppState ℕ).chatHistory ++
          [ChatMessage.mk ChatRole.model "There is no image to edit in that context."] },
       false) ∧
     (handleChatSubmit (⟨⟨[], -1⟩, [], none, none, none⟩ : AppState ℕ) "add a lamp"
        ImageContext.current (Except.ok ⟨none, none⟩)).1.scene = ⟨[], -1⟩ ∧
     (handleChatSubmit (⟨⟨[], -1⟩, [], none, none, none⟩ : AppState ℕ) "add a lamp"
        ImageContext.current (Except.ok ⟨none, none⟩)).2 = false) :=
  ⟨rfl, c7_chat_submit_rejects_missing_base _ "add a lamp" ImageContext.current
    (Except.ok ⟨none, none⟩) rfl⟩

/-- C8: after a successful placement event, a failing `generateComposite`
call surfaces a user-visible error and leaves SceneHistory untouched (no
revision pushed, index unmoved); the push happens only on the success path. -/
theorem c8_composite_failure_leaves_history_unchanged {α β γ : Type}
    (s : AppState α) (p : β) (q : γ) (img : α)
    (hscene : sceneImage s.scene = some img) :
    (∀ msg : String,
      (handleProductDrop s (some p) (some q) (Except.error msg)).scene = s.scene ∧
      (handleProductDrop s (some p) (some q) (Except.error msg)).error =
        some ("Failed to generate the image. " ++ msg)) ∧
    (∀ r : CompositeResult α,
      (handleProductDrop s (some p) (some q) (Except.ok r)).scene =
        updateSceneImage s.scene r.finalImage) := by
  constructor
  · intro msg
    unfold handleProductDrop
    rw [hscene]
    exact ⟨rfl, rfl⟩
  · intro r
    unfold handleProductDrop
    rw [hscene]

theorem c8_witness :
    sceneImage (⟨[5], 0⟩ : SceneHistoryState ℕ) = some 5 ∧
    ((∀ msg : String,
      (handleProductDrop (⟨⟨[5], 0⟩, [], none, none, none⟩ : AppState ℕ) (some 1) (some 2)
        (Except.error msg)).scene = ⟨[5], 0⟩ ∧
      (handleProductDrop (⟨⟨[5], 0⟩, [], none, none, none⟩ : AppState ℕ) (some 1) (some 2)
        (Except.error msg)).error = some ("Failed to generate the image. " ++ msg)) ∧
     (∀ r : CompositeResult ℕ,
      (handleProductDrop (⟨⟨[5], 0⟩, [], none, none, none⟩ : AppState ℕ) (some 1) (some 2)
        (Except.ok r)).scene = updateSceneImage ⟨[5], 0⟩ r.finalImage)) :=
  ⟨rfl, c8_composite_failure_leaves_history_unchanged
    (⟨⟨[5], 0⟩, [], none, none, none⟩ : AppState ℕ) (1 : ℕ) (2 : ℕ) 5 rfl⟩

/-- C10: a successful chat edit in context `previous` at index `i ≥ 1` is
pushed relative to the current index, not the edited base: the history
becomes `revisions[0..i] ++ [new]` with index `i + 1`; the old current
revision is retained (it becomes the new revision's predecessor), and the
new revision becomes current. -/
theorem c10_previous_context_pushes_at_current_index {α : Type} (s : AppState α)
    (prompt : String) (r : ChatEditResult α) (img : α) (i : ℤ)
    (hinv : historyInv s.scene) (hidx : s.scene.index = i) (hi : 1 ≤ i)
    (himg : r.image = some img) :
    (handleChatSubmit s prompt ImageContext.previous (Except.ok r)).1.scene.revisions =
      s.scene.revisions.take (i + 1).toNat ++ [img] ∧
    (handleChatSubmit s prompt ImageContext.previous (Except.ok r)).1.scene.index =
      i + 1 ∧
    previousSceneImage
      (handleChatSubmit s prompt ImageContext.previous (Except.ok r)).1.scene =
      sceneImage s.scene ∧
    sceneImage (handleChatSubmit s prompt ImageContext.previous (Except.ok r)).1.scene =
      some img := by
  obtain ⟨h1, h2, h3⟩ := hinv
  -- the previous revision exists, so the submit proceeds to the edit call
  have hprevsome : (previousSceneImage s.scene).isSome := by
    rw [previousSceneImage_isSome_iff s.scene ⟨h1, h2, h3⟩]
    omega
  obtain ⟨base, hbase⟩ := Option.isSome_iff_exists.mp hprevsome
  have hsel : selectBase ImageContext.previous s.scene = some base := by
    unfold selectBase
    simpa using hbase
  have hscene : (handleChatSubmit s prompt ImageContext.previous (Except.ok r)).1.scene =
      updateSceneImage s.scene img := by
    unfold handleChatSubmit
    rw [hsel]
    dsimp only
    rw [himg]
  have hlen : (i + 1).toNat ≤ s.scene.revisions.length := by omega
  have hlen2 : (s.scene.revisions.take (i + 1).toNat).length = (i + 1).toNat :=
    List.length_take_of_le hlen
  have hrev : (updateSceneImage s.scene img).revisions =
      s.scene.revisions.take (i + 1).toNat ++ [img] := by
    unfold updateSceneImage
    rw [hidx]
  have hind : (updateSceneImage s.scene img).index = i + 1 := by
    show ((s.scene.revisions.take (s.scene.index + 1).toNat).length : ℤ) = i + 1
    rw [hidx, hlen2]
    omega
  refine ⟨by rw [hscene, hrev], by rw [hscene, hind], ?_, ?_⟩
  · rw [hscene]
    unfold previousSceneImage
    rw [hrev, hind]
    rw [if_neg (by omega)]
    have hii : (i + 1 - 1 : ℤ).toNat = i.toNat := by omega
    rw [hii]
    have hlt : i.toNat < (s.scene.revisions.take (i + 1).toNat).length := by
      rw [hlen2]
      omega
    rw [List.getElem?_append_left hlt, List.getElem?_take_of_lt (by omega)]
    unfold sceneImage
    rw [hidx, if_neg (by omega)]
  · rw [hscene]
    unfold sceneImage
    rw [hrev, hind]
    rw [if_neg (by omega)]
    rw [List.getElem?_append_right (by rw [hlen2])]
    rw [hlen2]
    simp

theorem c10_witness :
    historyInv (⟨[10, 20], 1⟩ : SceneHistoryState ℕ) ∧
    (⟨[10, 20], 1⟩ : SceneHistoryState ℕ).index = 1 ∧
    (1 : ℤ) ≤ 1 ∧
    (ChatEditResult.mk none (some 30) : ChatEditResult ℕ).image = some 30 ∧
    ((handleChatSubmit (⟨⟨[10, 20], 1⟩, [], none, none, none⟩ : AppState ℕ) "shift it"
        ImageContext.previous (Except.ok ⟨none, some 30⟩)).1.scene.revisions =
      (⟨[10, 20], 1⟩ : SceneHistoryState ℕ).revisions.take ((1 : ℤ) + 1).toNat ++ [30] ∧
     (handleChatSubmit (⟨⟨[10, 20], 1⟩, [], none, none, none⟩ : AppState ℕ) "shift it"
        ImageContext.previous (Except.ok ⟨none, some 30⟩)).1.scene.index = 1 + 1 ∧
     previousSceneImage (handleChatSubmit
        (⟨⟨[10, 20], 1⟩, [], none, none, none⟩ : AppState ℕ) "shift it"
        ImageContext.previous (Except.ok ⟨none, some 30⟩)).1.scene =
       sceneImage (⟨[10, 20], 1⟩ : SceneHistoryState ℕ) ∧
     sceneImage (handleChatSubmit
        (⟨⟨[10, 20], 1⟩, [], none, none, none⟩ : AppState ℕ) "shift it"
        ImageContext.previous (Except.ok ⟨none, some 30⟩)).1.scene = some 30) :=
  ⟨by decide, rfl, by decide, rfl,
   c10_previous_context_pushes_at_current_index
     (⟨⟨[10, 20], 1⟩, [], none, none, none⟩ : AppState ℕ) "shift it"
     ⟨none, some 30⟩ 30 1 (by decide) rfl (by decide) rfl⟩
